import Mathlib

/-!
Shallow embedding of the ChatLinkUp room synchronization engine
(Chat page, ChatInput component and Supabase type declarations).

The embedding models:
  * the data model (`PublicMessage`, `ChatRoom`, attachment metadata);
  * the postgres_changes feed handler of `initializeChat`
    (`applyInsert` for INSERT events, `applyDelete` for DELETE events);
  * room resolution inside `initializeChat` (`resolveRoom`);
  * the server-side ordered fetch of a room's messages (`fetchMessages`);
  * `sendMessage` and `deleteMessage` of the Chat page;
  * `handleSubmit`, `processAudio` and `handleFileInputChange` of the
    ChatInput component.

Remote state (the Supabase tables) is modelled as explicit lists that the
operations read and return; asynchronous failures of individual network
calls are modelled as boolean outcome parameters; toasts are modelled as
values of the `Toast` type.  Timestamps assigned by the backing store are
modelled as natural numbers carrying only their order.
-/

/-- Message record, from the `PublicMessage` interface of the Supabase type
declarations.  The optional attachment columns are modelled with `Option`;
`has_attachment` mirrors the boolean column set by `sendMessage`. -/
structure PublicMessage where
  id : String
  room_id : String
  sender_name : String
  content : String
  created_at : Nat
  has_attachment : Bool := false
  attachment_path : Option String := none
  attachment_type : Option String := none
deriving DecidableEq, Repr

/-- Room record, from the `ChatRoom` interface of the Supabase type
declarations. -/
structure ChatRoom where
  id : String
  name : String
  slug : String
  created_at : Nat
deriving DecidableEq, Repr

/-- Toasts surfaced by the Chat page and the ChatInput component, one
constructor per distinct `toast(...)` call site that the embedded
operations can reach. -/
inductive Toast where
  | chatLoadError
  | sendError
  | deleteSuccess
  | deleteError
  | fileUploaded
  | uploadFailed
  | fileTooLarge
  | invalidFileType
  | transcribeSuccess
  | noSpeechDetected
  | speechError
deriving DecidableEq, Repr

/-- INSERT branch of the postgres_changes handler in `initializeChat`:
`setMessages((prev) => [...prev, newMessage])`. -/
def applyInsert (prev : List PublicMessage) (newMessage : PublicMessage) :
    List PublicMessage :=
  prev ++ [newMessage]

/-- DELETE branch of the postgres_changes handler in `initializeChat`:
`setMessages((prev) => prev.filter(msg => msg.id !== deletedMessageId))`. -/
def applyDelete (prev : List PublicMessage) (deletedMessageId : String) :
    List PublicMessage :=
  prev.filter (fun msg => msg.id != deletedMessageId)

/-- Comparison used by the backing store for
`.order('created_at', { ascending: true })`. -/
def createdLe (a b : PublicMessage) : Prop :=
  a.created_at ≤ b.created_at

instance : DecidableRel createdLe :=
  fun a b => inferInstanceAs (Decidable (a.created_at ≤ b.created_at))

instance : IsTotal PublicMessage createdLe :=
  ⟨fun a b => Nat.le_total a.created_at b.created_at⟩

instance : IsTrans PublicMessage createdLe :=
  ⟨fun _ _ _ => Nat.le_trans⟩

/-- Server-side evaluation of
`.from('public_messages').select('*').eq('room_id', roomId)
.order('created_at', { ascending: true })`: the room's rows in ascending
`created_at` order. -/
def fetchMessages (remote : List PublicMessage) (roomId : String) :
    List PublicMessage :=
  List.insertionSort createdLe (remote.filter (fun m => m.room_id == roomId))

/-- The snapshot is in ascending `created_at` order. -/
def sortedByCreatedAt (l : List PublicMessage) : Prop :=
  List.Sorted createdLe l

/-- The Chat page constant `DEFAULT_ROOM_NAME`. -/
def DEFAULT_ROOM_NAME : String := "Public Chat Room"

/-- The Chat page constant `DEFAULT_ROOM_SLUG`. -/
def DEFAULT_ROOM_SLUG : String := "public"

/-- Result of room resolution: the resolved room together with the
resulting remote `chat_rooms` table. -/
structure ResolveOutcome where
  room : ChatRoom
  remote : List ChatRoom
deriving DecidableEq, Repr

/-- Room bootstrap of `initializeChat`, with the room slug abstracted (the
page instantiates it at `DEFAULT_ROOM_SLUG`): select the rooms whose slug
matches; if the select errors, throw (caught as the fatal chat-load toast);
if no row matches, insert a room with `DEFAULT_ROOM_NAME` and the slug
(again throwing on error); otherwise take the first matching row.  `newId`
and `now` stand for the id and timestamp the backing store assigns to a
created row; `roomError` and `createError` are the outcomes of the two
network calls. -/
def resolveRoom (remote : List ChatRoom) (slug : String) (newId : String)
    (now : Nat) (roomError createError : Bool) :
    Except Toast ResolveOutcome :=
  if roomError then
    .error Toast.chatLoadError
  else
    match remote.filter (fun r => r.slug == slug) with
    | [] =>
      if createError then
        .error Toast.chatLoadError
      else
        let newRoom : ChatRoom := ⟨newId, DEFAULT_ROOM_NAME, slug, now⟩
        .ok ⟨newRoom, remote ++ [newRoom]⟩
    | r :: _ => .ok ⟨r, remote⟩

/-- Stored reference plus media type handed from the attachment upload to
the message insert (`attachmentInfo` in the source). -/
structure AttachmentInfo where
  path : String
  type : String
deriving DecidableEq, Repr

/-- Result of the Chat page's `sendMessage`: resulting remote
`public_messages` table, resulting local message list, surfaced toast, and
whether the error was re-thrown to the ChatInput component. -/
structure SendResult where
  remote : List PublicMessage
  messages : List PublicMessage
  toast : Option Toast
  threw : Bool
deriving DecidableEq, Repr

/-- Embedding of the JavaScript `String.prototype.trim` used by
`sendMessage` and `handleSubmit`: drop whitespace from both ends. -/
def jsTrim (s : String) : String :=
  String.mk
    (((s.toList.dropWhile Char.isWhitespace).reverse.dropWhile
      Char.isWhitespace).reverse)

/-- The Chat page's `sendMessage`: guard
`(!text.trim() && !attachmentInfo) || !defaultRoom`, then insert a row
built from the room id, the username, the text and (when present) the
attachment info.  `newId` and `now` stand for the id and `created_at` the
backing store assigns to the inserted row; `insertError` is the outcome of
the insert call (on error the page toasts and re-throws).  The local
message list is threaded through untouched: the source contains no
`setMessages` call in `sendMessage`. -/
def sendMessage (remote messages : List PublicMessage)
    (defaultRoom : Option ChatRoom) (username text : String)
    (attachmentInfo : Option AttachmentInfo) (newId : String) (now : Nat)
    (insertError : Bool) : SendResult :=
  if (jsTrim text == "" && attachmentInfo.isNone) || defaultRoom.isNone then
    ⟨remote, messages, none, false⟩
  else
    match defaultRoom with
    | none => ⟨remote, messages, none, false⟩
    | some room =>
      if insertError then
        ⟨remote, messages, some Toast.sendError, true⟩
      else
        let messageData : PublicMessage :=
          { id := newId
            room_id := room.id
            sender_name := username
            content := text
            created_at := now
            has_attachment := attachmentInfo.isSome
            attachment_path := attachmentInfo.map (fun a => a.path)
            attachment_type := attachmentInfo.map (fun a => a.type) }
        ⟨remote ++ [messageData], messages, none, false⟩

/-- Result of the Chat page's `deleteMessage`: resulting remote
`public_messages` table, resulting local message list and surfaced
toast. -/
structure DeleteOutcome where
  remote : List PublicMessage
  messages : List PublicMessage
  toast : Toast
deriving DecidableEq, Repr

/-- The Chat page's `deleteMessage`: delete the row with the given id (on
error, toast and stop); filter the id out of the local list; re-fetch the
room's messages ordered ascending by `created_at` and, when the re-fetch
succeeds, replace the local list with the fetched one; toast success.
`deleteError` and `refreshError` are the outcomes of the two network
calls. -/
def deleteMessage (remote messages : List PublicMessage) (roomId : String)
    (messageId : String) (deleteError refreshError : Bool) : DeleteOutcome :=
  if deleteError then
    ⟨remote, messages, Toast.deleteError⟩
  else
    let remoteAfter := remote.filter (fun msg => msg.id != messageId)
    let localAfter := messages.filter (fun msg => msg.id != messageId)
    if refreshError then
      ⟨remoteAfter, localAfter, Toast.deleteSuccess⟩
    else
      ⟨remoteAfter, fetchMessages remoteAfter roomId, Toast.deleteSuccess⟩

/-- A browser `File` as the ChatInput component reads it: `name`, `size`
in bytes and MIME `type`. -/
structure JsFile where
  name : String
  size : Nat
  type : String
deriving DecidableEq, Repr

/-- Result of the ChatInput component's `handleSubmit`: the resulting
`message` draft and pending `attachment` state, whether the storage upload
and the message insert calls were reached, and the toasts surfaced by the
submit (including the send-failure toast raised inside `onSendMessage`
before it re-throws). -/
structure SubmitResult where
  message : String
  attachment : Option JsFile
  uploadAttempted : Bool
  insertAttempted : Bool
  sentAttachmentInfo : Option AttachmentInfo
  toasts : List Toast
deriving DecidableEq, Repr

/-- The ChatInput component's `handleSubmit`: guard
`(!message.trim() && !attachment) || isSubmitting || disabled`; when an
attachment is pending, upload it under the key
`Date.now() + "-" + attachment.name` — on upload error toast the distinct
upload-failure toast and return without touching the draft or the
attachment; then call `onSendMessage(message.trim(), attachmentInfo)` —
on success clear the draft and the attachment, on failure (the re-thrown
send error) leave both unchanged.  `now` stands for `Date.now()`;
`uploadError` and `sendError` are the outcomes of the two asynchronous
calls. -/
def handleSubmit (message : String) (attachment : Option JsFile)
    (isSubmitting disabled : Bool) (now : Nat)
    (uploadError sendError : Bool) : SubmitResult :=
  if (jsTrim message == "" && attachment.isNone) || isSubmitting
      || disabled then
    ⟨message, attachment, false, false, none, []⟩
  else
    match attachment with
    | some file =>
      if uploadError then
        ⟨message, some file, true, false, none, [Toast.uploadFailed]⟩
      else
        let attachmentInfo : AttachmentInfo :=
          ⟨toString now ++ "-" ++ file.name, file.type⟩
        if sendError then
          ⟨message, some file, true, true, some attachmentInfo,
            [Toast.fileUploaded, Toast.sendError]⟩
        else
          ⟨"", none, true, true, some attachmentInfo,
            [Toast.fileUploaded]⟩
    | none =>
      if sendError then
        ⟨message, none, false, true, none, [Toast.sendError]⟩
      else
        ⟨"", none, false, true, none, []⟩

/-- Shape of the speech-recognition result in `processAudio`: either an
array of items or a single object; a `text` property may be absent
(`none`) or present with a possibly empty string. -/
inductive TranscriberOutput where
  | arr (items : List (Option String))
  | single (text : Option String)
deriving DecidableEq, Repr

/-- The result-unpacking logic of `processAudio`: for an array, take
`result[0].text` when the array is non-empty and that property is truthy;
for a single object, take `result.text` when the property is present;
otherwise `transcribedText` stays the empty string. -/
def extractTranscribedText : TranscriberOutput → String
  | .arr [] => ""
  | .arr (first :: _) =>
    match first with
    | some t => if t == "" then "" else t
    | none => ""
  | .single t => t.getD ""

/-- The ChatInput component's `processAudio`, acting on the `message`
draft: on a successful inference whose extracted text is truthy, append
the text to the draft prefixed by a space exactly when the draft is
non-empty and toast success; on empty extracted text, leave the draft and
toast the no-speech notice; on a failed inference (the catch branch),
leave the draft and toast the speech error.  Returns the resulting draft
and the surfaced toast. -/
def processAudio (message : String)
    (outcome : Except Unit TranscriberOutput) : String × Toast :=
  match outcome with
  | .error _ => (message, Toast.speechError)
  | .ok result =>
    let transcribedText := extractTranscribedText result
    if transcribedText == "" then
      (message, Toast.noSpeechDetected)
    else
      (message ++ (if message == "" then "" else " ") ++ transcribedText,
        Toast.transcribeSuccess)

/-- The `allowedTypes` list of `handleFileInputChange`, verbatim. -/
def allowedTypes : List String :=
  ["image/jpeg", "image/png", "image/gif", "image/webp",
   "application/pdf",
   "text/plain",
   "application/msword",
   "application/vnd.openxmlformats-officedocument.wordprocessingml.document"]

/-- The ChatInput component's `handleFileInputChange`, acting on the
pending `attachment` state: with no file selected, do nothing; reject a
file larger than `10 * 1024 * 1024` bytes with the size toast; reject a
file whose MIME type is not in `allowedTypes` with the type toast; accept
an admissible file as the pending attachment.  Returns the resulting
attachment state and the surfaced toast, if any. -/
def handleFileInputChange (attachment : Option JsFile)
    (file : Option JsFile) : Option JsFile × Option Toast :=
  match file with
  | none => (attachment, none)
  | some f =>
    if f.size > 10 * 1024 * 1024 then
      (attachment, some Toast.fileTooLarge)
    else if !(allowedTypes.contains f.type) then
      (attachment, some Toast.invalidFileType)
    else
      (some f, none)

/-- C1 (counterexample).  A feed INSERT whose id is already present does
not leave the list unchanged: delivering the same message twice yields a
list with two entries carrying that id. -/
theorem applyInsert_duplicate_counterexample :
    applyInsert (applyInsert [] ⟨"a", "r", "u", "hi", 1, false, none, none⟩)
        ⟨"a", "r", "u", "hi", 1, false, none, none⟩ ≠
      applyInsert [] ⟨"a", "r", "u", "hi", 1, false, none, none⟩ ∧
    (applyInsert (applyInsert [] ⟨"a", "r", "u", "hi", 1, false, none, none⟩)
        ⟨"a", "r", "u", "hi", 1, false, none, none⟩).countP
      (fun x => x.id == "a") = 2 := by
  decide

/-- C1 (amended).  The feed INSERT handler appends the new message to the
end of the list unconditionally: it performs no duplicate check, so an
insert always grows by one the number of entries carrying the inserted
id, and duplicate delivery of an id already present produces a second
entry with that id rather than leaving the list unchanged. -/
theorem applyInsert_appends (prev : List PublicMessage)
    (newMessage : PublicMessage) :
    applyInsert prev newMessage = prev ++ [newMessage] ∧
    (applyInsert prev newMessage).countP
        (fun x => x.id == newMessage.id) =
      prev.countP (fun x => x.id == newMessage.id) + 1 := by
  refine ⟨rfl, ?_⟩
  simp [applyInsert, List.countP_append, List.countP_cons]

/-- C2 (counterexample).  Store seeded with ids 1 and 3 at timestamps 1
and 3; the feed delivers an insert with id 2 at timestamp 2.  The
resulting snapshot is not `[1, 2, 3]`. -/
theorem feed_insert_unsorted_counterexample :
    (applyInsert
        [⟨"1", "r", "u", "a", 1, false, none, none⟩,
         ⟨"3", "r", "u", "c", 3, false, none, none⟩]
        ⟨"2", "r", "u", "b", 2, false, none, none⟩).map
      PublicMessage.id ≠ ["1", "2", "3"] := by
  decide

/-- C2 (amended).  The feed INSERT handler appends at the end without
re-sorting: after seeding with ids 1 and 3 at timestamps 1 and 3 and a
feed insert of id 2 at timestamp 2, the snapshot is `[1, 3, 2]`.  The
snapshot is in ascending `created_at` order only when it comes from a
fetch, which orders by `created_at` alone with no id tie-break. -/
theorem feed_insert_appends_unsorted :
    (applyInsert
        [⟨"1", "r", "u", "a", 1, false, none, none⟩,
         ⟨"3", "r", "u", "c", 3, false, none, none⟩]
        ⟨"2", "r", "u", "b", 2, false, none, none⟩).map
      PublicMessage.id = ["1", "3", "2"] ∧
    ∀ remote roomId, sortedByCreatedAt (fetchMessages remote roomId) := by
  refine ⟨by decide, ?_⟩
  intro remote roomId
  exact List.sorted_insertionSort createdLe _

/-- C8.  The feed DELETE handler is idempotent: applying it twice with
the same id equals applying it once, and applying it with an id not
present in the list leaves the list unchanged. -/
theorem applyDelete_idempotent_noop (l : List PublicMessage) (i : String) :
    applyDelete (applyDelete l i) i = applyDelete l i ∧
    ((∀ m ∈ l, m.id ≠ i) → applyDelete l i = l) := by
  constructor
  · simp [applyDelete, List.filter_filter]
  · intro h
    apply List.filter_eq_self.mpr
    intro m hm
    simpa using h m hm

/-- Witness for C8 at a concrete store and id. -/
theorem applyDelete_idempotent_noop_witness :
    applyDelete [⟨"a", "r", "u", "hi", 1, false, none, none⟩] "z" =
      [⟨"a", "r", "u", "hi", 1, false, none, none⟩] :=
  (applyDelete_idempotent_noop
      [⟨"a", "r", "u", "hi", 1, false, none, none⟩] "z").2 (by decide)

/-- Membership in a fetched room snapshot. -/
theorem mem_fetchMessages {remote : List PublicMessage} {roomId : String}
    {m : PublicMessage} :
    m ∈ fetchMessages remote roomId ↔ m ∈ remote ∧ m.room_id = roomId := by
  simp [fetchMessages, List.mem_insertionSort, List.mem_filter]

/-- C3.  When the remote delete succeeds, `deleteMessage` leaves no entry
with the deleted id in the snapshot; the remote table loses the row, and
when the backstop re-fetch also succeeds the snapshot is replaced by the
re-fetched room list, which is in ascending `created_at` order.  No feed
DELETE event is involved. -/
theorem deleteMessage_removes_id (remote messages : List PublicMessage)
    (roomId messageId : String) (refreshError : Bool) :
    (∀ m ∈ (deleteMessage remote messages roomId messageId false
        refreshError).messages, m.id ≠ messageId) ∧
    (deleteMessage remote messages roomId messageId false
        refreshError).remote =
      remote.filter (fun msg => msg.id != messageId) ∧
    (refreshError = false →
      (deleteMessage remote messages roomId messageId false
          refreshError).messages =
        fetchMessages (remote.filter (fun msg => msg.id != messageId))
          roomId ∧
      sortedByCreatedAt (deleteMessage remote messages roomId messageId
        false refreshError).messages) := by
  cases refreshError with
  | true =>
    refine ⟨?_, rfl, by intro h; cases h⟩
    intro m hm
    simp only [deleteMessage, Bool.false_eq_true, if_false, if_true] at hm
    simpa using List.of_mem_filter hm
  | false =>
    refine ⟨?_, rfl, fun _ => ⟨rfl, ?_⟩⟩
    · intro m hm
      simp only [deleteMessage, Bool.false_eq_true, if_false] at hm
      have hm' := (mem_fetchMessages.mp hm).1
      simpa using List.of_mem_filter hm'
    · simp only [deleteMessage, Bool.false_eq_true, if_false]
      exact List.sorted_insertionSort createdLe _

/-- Witness for C3 at a concrete store: deleting id "a" from a two-row
room leaves a snapshot without "a". -/
theorem deleteMessage_removes_id_witness :
    ((⟨"b", "r", "u", "yo", 2, false, none, none⟩ : PublicMessage) ∈
        (deleteMessage
          [⟨"a", "r", "u", "hi", 1, false, none, none⟩,
           ⟨"b", "r", "u", "yo", 2, false, none, none⟩]
          [⟨"a", "r", "u", "hi", 1, false, none, none⟩,
           ⟨"b", "r", "u", "yo", 2, false, none, none⟩]
          "r" "a" false false).messages) ∧
      (⟨"b", "r", "u", "yo", 2, false, none, none⟩ : PublicMessage).id ≠
        "a" :=
  ⟨by decide,
    (deleteMessage_removes_id
      [⟨"a", "r", "u", "hi", 1, false, none, none⟩,
       ⟨"b", "r", "u", "yo", 2, false, none, none⟩]
      [⟨"a", "r", "u", "hi", 1, false, none, none⟩,
       ⟨"b", "r", "u", "yo", 2, false, none, none⟩]
      "r" "a" false).1 ⟨"b", "r", "u", "yo", 2, false, none, none⟩
      (by decide)⟩

/-- C4.  A send whose text trims to empty and which carries no attachment
is rejected up front: `sendMessage` returns without inserting anything
remotely, raising no toast and throwing nothing, and `handleSubmit`
returns without attempting the upload or the insert and without touching
the draft or the pending attachment. -/
theorem send_empty_rejected (remote messages : List PublicMessage)
    (defaultRoom : Option ChatRoom) (username text msg newId : String)
    (now now2 : Nat)
    (insertError isSubmitting disabled uploadError sendError : Bool)
    (htext : jsTrim text = "") (hmsg : jsTrim msg = "") :
    sendMessage remote messages defaultRoom username text none newId now
        insertError = ⟨remote, messages, none, false⟩ ∧
    handleSubmit msg none isSubmitting disabled now2 uploadError
        sendError = ⟨msg, none, false, false, none, []⟩ := by
  constructor
  · simp [sendMessage, htext]
  · simp [handleSubmit, hmsg]

/-- Witness for C4 on whitespace-only drafts. -/
theorem send_empty_rejected_witness :
    sendMessage [] [] none "u" "  " none "id" 0 false =
      ⟨[], [], none, false⟩ ∧
    handleSubmit " " none false false 0 false false =
      ⟨" ", none, false, false, none, []⟩ :=
  send_empty_rejected [] [] none "u" "  " " " "id" 0 0 false false false
    false false (by decide) (by decide)

/-- C5.  When the attachment upload fails, `handleSubmit` aborts before
the message insert: the insert is never attempted, no attachment info is
handed to `onSendMessage`, the draft and the pending attachment are left
unchanged, and the surfaced toast is the upload-failure one, a notice
distinct from the send-failure toast. -/
theorem upload_failure_aborts_send (message : String) (file : JsFile)
    (now : Nat) (sendError : Bool) :
    handleSubmit message (some file) false false now true sendError =
      ⟨message, some file, true, false, none, [Toast.uploadFailed]⟩ ∧
    Toast.uploadFailed ≠ Toast.sendError := by
  constructor
  · simp [handleSubmit]
  · decide

/-- C6.  The send pipeline never mutates the Local Message Store: for
every outcome of `sendMessage` the local message list comes back exactly
as it went in, and a sent message enters the Store only when the feed's
INSERT event for it is applied, which does put it in the snapshot. -/
theorem sendMessage_frame (remote messages : List PublicMessage)
    (defaultRoom : Option ChatRoom) (username text : String)
    (attachmentInfo : Option AttachmentInfo) (newId : String) (now : Nat)
    (insertError : Bool) :
    (sendMessage remote messages defaultRoom username text attachmentInfo
        newId now insertError).messages = messages ∧
    ∀ m : PublicMessage, m ∈ applyInsert messages m := by
  constructor
  · unfold sendMessage
    split
    · rfl
    · cases defaultRoom with
      | none => rfl
      | some room =>
        cases insertError <;> rfl
  · intro m
    simp [applyInsert]

/-- C7.  A successful room resolution yields a room with the requested
slug; when no room with that slug existed, the created room carries the
default display name; a second resolution against the resulting remote
state succeeds and again yields a room with that slug; and both error
paths are fatal: a lookup error surfaces as the chat-load toast, and so
does a create error on the create path (no room matching the slug). -/
theorem resolveRoom_spec (remote : List ChatRoom)
    (slug newId newId2 : String) (now now2 : Nat) (room : ChatRoom)
    (remote' : List ChatRoom)
    (h : resolveRoom remote slug newId now false false =
      .ok ⟨room, remote'⟩) :
    room.slug = slug ∧
    (remote.filter (fun r => r.slug == slug) = [] →
      room.name = DEFAULT_ROOM_NAME) ∧
    (∃ room2, resolveRoom remote' slug newId2 now2 false false =
        .ok ⟨room2, remote'⟩ ∧ room2.slug = slug) ∧
    (∀ createError, resolveRoom remote slug newId now true createError =
      .error Toast.chatLoadError) ∧
    (remote.filter (fun r => r.slug == slug) = [] →
      resolveRoom remote slug newId now false true =
        .error Toast.chatLoadError) := by
  have herr : ∀ createError,
      resolveRoom remote slug newId now true createError =
        .error Toast.chatLoadError := by
    intro createError
    simp [resolveRoom]
  cases hf : remote.filter (fun r => r.slug == slug) with
  | nil =>
    simp only [resolveRoom, Bool.false_eq_true, if_false, hf,
      Except.ok.injEq, ResolveOutcome.mk.injEq] at h
    obtain ⟨h1, h2⟩ := h
    subst h1
    subst h2
    refine ⟨rfl, fun _ => rfl, ?_, herr, ?_⟩
    · have hfilter :
          (remote ++
              [(⟨newId, DEFAULT_ROOM_NAME, slug, now⟩ : ChatRoom)]).filter
              (fun r => r.slug == slug) =
            [(⟨newId, DEFAULT_ROOM_NAME, slug, now⟩ : ChatRoom)] := by
        simp [List.filter_append, hf]
      refine ⟨⟨newId, DEFAULT_ROOM_NAME, slug, now⟩, ?_, rfl⟩
      simp [resolveRoom, hfilter]
    · intro _
      simp [resolveRoom, hf]
  | cons r rest =>
    simp only [resolveRoom, Bool.false_eq_true, if_false, hf,
      Except.ok.injEq, ResolveOutcome.mk.injEq] at h
    obtain ⟨h1, h2⟩ := h
    subst h2
    have hrmem : r ∈ remote.filter (fun x => x.slug == slug) := by
      rw [hf]
      exact List.mem_cons_self r rest
    have hr : r.slug = slug := by
      simpa using List.of_mem_filter hrmem
    refine ⟨h1 ▸ hr, ?_, ⟨r, ?_, hr⟩, herr, ?_⟩
    · intro hc
      exact absurd hc (List.cons_ne_nil r rest)
    · simp [resolveRoom, hf]
    · intro hc
      exact absurd hc (List.cons_ne_nil r rest)

/-- Witness for C7 at a concrete bootstrap: resolving "public" against an
empty room table creates the default room, whose slug is "public". -/
theorem resolveRoom_spec_witness :
    (⟨"id1", "Public Chat Room", "public", 0⟩ : ChatRoom).slug =
      "public" :=
  (resolveRoom_spec [] "public" "id1" "id2" 0 1
    ⟨"id1", "Public Chat Room", "public", 0⟩
    [⟨"id1", "Public Chat Room", "public", 0⟩] rfl).1

/-- C9.  The transcription adapter appends the extracted text to the
draft with a single separating space exactly when the draft is non-empty
(an empty draft becomes exactly the transcribed text); an empty
extraction leaves the draft unchanged behind the no-speech notice, and a
failed inference leaves the draft unchanged behind the error notice. -/
theorem processAudio_spec (message t : String)
    (result : TranscriberOutput)
    (ht : extractTranscribedText result = t) :
    (t ≠ "" → message ≠ "" →
      processAudio message (.ok result) =
        (message ++ " " ++ t, Toast.transcribeSuccess)) ∧
    (t ≠ "" → message = "" →
      processAudio message (.ok result) = (t, Toast.transcribeSuccess)) ∧
    (t = "" →
      processAudio message (.ok result) =
        (message, Toast.noSpeechDetected)) ∧
    (∀ e : Unit, processAudio message (.error e) =
      (message, Toast.speechError)) := by
  refine ⟨?_, ?_, ?_, fun e => rfl⟩
  · intro h1 h2
    simp [processAudio, ht, h1, h2]
  · intro h1 h2
    subst h2
    simp [processAudio, ht, h1]
  · intro h1
    subst h1
    simp [processAudio, ht]

/-- Witness for C9: transcribing "there" onto the non-empty draft "hi"
yields "hi there". -/
theorem processAudio_spec_witness :
    processAudio "hi" (.ok (.single (some "there"))) =
      ("hi" ++ " " ++ "there", Toast.transcribeSuccess) :=
  (processAudio_spec "hi" "there" (.single (some "there")) (by decide)).1
    (by decide) (by decide)

/-- C10.  A chosen file becomes the pending attachment exactly when its
size is at most `10 * 1024 * 1024` bytes and its MIME type is in the
allowed list, which is exactly the eight listed types; a file failing
either check leaves the pending attachment unset and surfaces a
rejection toast. -/
theorem handleFileInputChange_spec (f : JsFile) :
    ((handleFileInputChange none (some f)).1 = some f ↔
      (f.size ≤ 10 * 1024 * 1024 ∧ f.type ∈ allowedTypes)) ∧
    allowedTypes =
      ["image/jpeg", "image/png", "image/gif", "image/webp",
       "application/pdf", "text/plain", "application/msword",
       "application/vnd.openxmlformats-officedocument.wordprocessingml.document"] ∧
    (¬(f.size ≤ 10 * 1024 * 1024 ∧ f.type ∈ allowedTypes) →
      (handleFileInputChange none (some f)).1 = none ∧
      (handleFileInputChange none (some f)).2 ≠ none) := by
  by_cases h1 : f.size > 10 * 1024 * 1024
  · have hsz : ¬ f.size ≤ 10 * 1024 * 1024 := by omega
    refine ⟨?_, rfl, ?_⟩
    · simp [handleFileInputChange, h1, hsz]
    · intro _
      simp [handleFileInputChange, h1]
  · by_cases h2 : f.type ∈ allowedTypes
    · have hc : allowedTypes.contains f.type = true := List.elem_iff.mpr h2
      refine ⟨?_, rfl, ?_⟩
      · simp [handleFileInputChange, h1, h2]
        omega
      · intro hcontra
        exact absurd ⟨by omega, h2⟩ hcontra
    · have hc : ¬ allowedTypes.contains f.type = true :=
        fun hcc => h2 (List.elem_iff.mp hcc)
      refine ⟨?_, rfl, ?_⟩
      · simp [handleFileInputChange, h1, hc, h2]
      · intro _
        simp [handleFileInputChange, h1, hc, h2]

/-- Witness for C10: a 20 MB PDF is rejected and the pending attachment
stays unset. -/
theorem handleFileInputChange_spec_witness :
    (handleFileInputChange none
        (some ⟨"big.pdf", 20 * 1024 * 1024, "application/pdf"⟩)).1 =
      none :=
  ((handleFileInputChange_spec
      ⟨"big.pdf", 20 * 1024 * 1024, "application/pdf"⟩).2.2
    (by decide)).1
